import Mathlib

/-!
Shallow embedding of `django_statsd/middleware.py` and `django_statsd/celery.py`
(ckald/django-dogstatsd).

Modelling choices:
* Python dicts (`collections.defaultdict`) are association lists
  `List (String × α)` with the Python insertion-order semantics: updating an
  existing key keeps its position, a new key is appended at the end.
* `time.time()` timestamps and timer totals are `Int` (the claims under
  study are exact-sum claims that do not depend on float rounding).
* Calls to the statsd sink (`statsd.increment` / `statsd.timing`) are recorded
  as a list of `Emission` values instead of performing I/O.
* A raised Python exception (AssertionError, AttributeError) is an
  `Option String` error component (or `Except String` for return values);
  state mutations performed before the raise are kept, as in Python.
* `settings.DEBUG` is the explicit `debug : Bool` argument of `Timer.submit`;
  `STATSD_PREFIX` is the explicit `gpfx : Option String` argument of the
  constructors; `STATSD_SAMPLE_RATE` defaults to 1.
-/

namespace DjangoStatsd

/-- First-match association-list lookup: Python `d[k]` / `d.get(k)`. -/
def alookup {α : Type} : List (String × α) → String → Option α
  | [], _ => none
  | (k, v) :: rest, key => if k = key then some v else alookup rest key

/-- Python `d.get(k, default)` / `defaultdict` read. -/
def dictGetD {α : Type} (m : List (String × α)) (key : String) (d : α) : α :=
  (alookup m key).getD d

/-- Python `d[k] = v`: update in place if the key exists, else append at the
end (dict insertion order). -/
def dictSet {α : Type} : List (String × α) → String → α → List (String × α)
  | [], key, v => [(key, v)]
  | (k, w) :: rest, key, v =>
      if k = key then (k, v) :: rest else (k, w) :: dictSet rest key v

/-- Python `del d[k]` (keys are unique by construction, so removing the first
occurrence is exact). -/
def dictDel {α : Type} : List (String × α) → String → List (String × α)
  | [], _ => []
  | (k, w) :: rest, key => if k = key then rest else (k, w) :: dictDel rest key

/-- Python `defaultdict.__getitem__` side effect: a bare read of a missing key
inserts the default value at the end. -/
def dictEnsure {α : Type} (m : List (String × α)) (key : String) (d : α) :
    List (String × α) :=
  match alookup m key with
  | some _ => m
  | none => m ++ [(key, d)]

/-- Pop from the right end of a `collections.deque` (`deque.pop()`):
returns the last element and the remaining deque, `none` when empty. -/
def dequePop : List Int → Option (Int × List Int)
  | [] => none
  | x :: rest =>
      match dequePop rest with
      | none => some (x, [])
      | some (y, rest2) => some (y, x :: rest2)

/-- The `STATSD_SAMPLE_RATE` default (1.0 in the source; claims never vary it). -/
def sampleRateDefault : Int := 1

/-- One call to the statsd sink: `statsd.increment(name, value, tags=..,
sample_rate=..)` or `statsd.timing(name, value, tags=.., sample_rate=..)`. -/
inductive Emission where
  | increment (name : String) (value : Int) (tags : List String) (rate : Int)
  | timing (name : String) (value : Int) (tags : List String) (rate : Int)
deriving DecidableEq, Repr

/-- The `tags` argument of the submit functions. The celery glue passes a
string where a dict is expected, so the argument is either. -/
inductive TagArg where
  | dict (entries : List (String × String))
  | str (s : String)
deriving DecidableEq, Repr

/-- Python `tags.items()`: succeeds on a dict, raises AttributeError on a
string. -/
def TagArg.items : TagArg → Except String (List (String × String))
  | .dict entries => .ok entries
  | .str _ => .error "AttributeError: str object has no attribute items"

/-- The list comprehension `[k + ":" + v for k, v in tags.items()]`. -/
def fmtTags (entries : List (String × String)) : List String :=
  entries.map (fun p => p.1 ++ ":" ++ p.2)

/-- Name resolution of `Client.__init__`: when the global metric-name
setting is truthy (neither `None` nor empty), it is dot-joined in front of
the per-client name. -/
def clientName (gpfx : Option String) (p : String) : String :=
  match gpfx with
  | some g => if g = "" then p else g ++ "." ++ p
  | none => p

/-- Class `Counter(Client)`: name plus `defaultdict(int)` data. -/
structure Counter where
  pfx : String
  data : List (String × Int)
deriving DecidableEq, Repr

def Counter.init (gpfx : Option String) (p : String) : Counter :=
  { pfx := clientName gpfx p, data := [] }

/-- Method `Counter.increment`: `self.data[key] += delta`. -/
def Counter.increment (c : Counter) (key : String) (delta : Int) : Counter :=
  { c with data := dictSet c.data key (dictGetD c.data key 0 + delta) }

/-- Method `Counter.decrement`: `self.data[key] -= delta`. -/
def Counter.decrement (c : Counter) (key : String) (delta : Int) : Counter :=
  { c with data := dictSet c.data key (dictGetD c.data key 0 - delta) }

/-- Method `Counter.submit(tags)`: format the tags (AttributeError on a string tag
argument), then emit one counter per key with truthy (non-zero) value.
Note the source never clears `self.data`. -/
def Counter.submit (c : Counter) (tags : TagArg) :
    Counter × List Emission × Option String :=
  match tags.items with
  | .error e => (c, [], some e)
  | .ok entries =>
      (c,
       (c.data.filter (fun p => p.2 != 0)).map
         (fun p => Emission.increment (c.pfx ++ "." ++ p.1) p.2
            (fmtTags entries) sampleRateDefault),
       none)

/-- Class `Timer(Client)`: name, `defaultdict(deque)` of start timestamps, and
`defaultdict(float)` of accumulated totals. -/
structure Timer where
  pfx : String
  starts : List (String × List Int)
  data : List (String × Int)
deriving DecidableEq, Repr

def Timer.init (gpfx : Option String) (p : String) : Timer :=
  { pfx := clientName gpfx p, starts := [], data := [] }

/-- Method `Timer.start`: `self.starts[key].append(time.time())`. -/
def Timer.start (t : Timer) (key : String) (now : Int) : Timer :=
  { t with starts := dictSet t.starts key (dictGetD t.starts key [] ++ [now]) }

/-- Method `Timer.stop`: the `assert self.starts[key]` read inserts an empty deque
for a missing key (defaultdict) before failing; on success pop the most
recent timestamp, delete the entry when its deque empties, and accumulate
`now - popped` into `self.data[key]`. -/
def Timer.stop (t : Timer) (key : String) (now : Int) :
    Timer × Except String Int :=
  let starts1 := dictEnsure t.starts key []
  match dequePop (dictGetD starts1 key []) with
  | none =>
      ({ t with starts := starts1 },
       .error ("Unable to stop tracking " ++ key ++
               ", never started tracking it"))
  | some (ts, rest) =>
      let delta := now - ts
      let starts2 := if rest.isEmpty then dictDel starts1 key
                     else dictSet starts1 key rest
      ({ t with starts := starts2,
                data := dictSet t.data key (dictGetD t.data key 0 + delta) },
       .ok delta)

/-- Method `Timer.submit(tags)`: format the tags (AttributeError on a string),
emit one timing per key while popping it (so `data` ends empty), then in
DEBUG assert that no start deques remain. -/
def Timer.submit (t : Timer) (tags : TagArg) (debug : Bool) :
    Timer × List Emission × Option String :=
  match tags.items with
  | .error e => (t, [], some e)
  | .ok entries =>
      ({ t with data := [] },
       t.data.map (fun p => Emission.timing (t.pfx ++ "." ++ p.1) p.2
          (fmtTags entries) sampleRateDefault),
       if debug && !t.starts.isEmpty then
         some "Timer(s) were started but never stopped"
       else none)

/-- The `StatsdMiddleware.scope` bindings (thread-local attributes `timings`,
`counter`, `counter_site`; `None` / missing attribute is `none`). -/
structure Scope where
  timings : Option Timer
  counter : Option Counter
  counter_site : Option Counter
deriving DecidableEq, Repr

namespace StatsdMiddleware

/-- Classmethod `StatsdMiddleware.start`: fresh Timer with an open `total` span,
fresh counter and site counter each holding one `hit`. -/
def start (gpfx : Option String) (p : String) (now : Int) : Scope :=
  { timings := some ((Timer.init gpfx p).start "total" now),
    counter := some ((Counter.init gpfx p).increment "hit" 1),
    counter_site := some ((Counter.init gpfx p).increment "hit" 1) }

/-- Classmethod `StatsdMiddleware.stop(tags)`: no-op when `scope.timings` is falsy;
otherwise stop the `total` span, submit the timer, the counter, and the
site counter with the fixed `type: site` tag, propagating the first raised
exception (and keeping the mutations made before it, as Python does). -/
def stop (scope : Scope) (tags : TagArg) (now : Int) (debug : Bool) :
    Scope × List Emission × Option String :=
  match scope.timings with
  | none => (scope, [], none)
  | some t =>
      let tr := t.stop "total" now
      match tr.2 with
      | .error e => ({ scope with timings := some tr.1 }, [], some e)
      | .ok _ =>
          let ts := tr.1.submit tags debug
          let scope1 := { scope with timings := some ts.1 }
          match ts.2.2 with
          | some e => (scope1, ts.2.1, some e)
          | none =>
              match scope.counter with
              | none => (scope1, ts.2.1,
                         some "AttributeError: NoneType has no attribute submit")
              | some c =>
                  let cs := c.submit tags
                  let scope2 := { scope1 with counter := some cs.1 }
                  match cs.2.2 with
                  | some e => (scope2, ts.2.1 ++ cs.2.1, some e)
                  | none =>
                      match scope.counter_site with
                      | none => (scope2, ts.2.1 ++ cs.2.1,
                                 some "AttributeError: NoneType has no attribute submit")
                      | some sc =>
                          let ss := sc.submit (.dict [("type", "site")])
                          ({ scope2 with counter_site := some ss.1 },
                           ts.2.1 ++ cs.2.1 ++ ss.2.1, ss.2.2)

/-- Method `StatsdMiddleware.cleanup`: sets `scope.timings` and `scope.counter`
to `None` (the source does not touch `counter_site`; it also nulls
`self.view_name` and `request.statsd`, which live outside the Scope).
The emission list records that cleanup sends nothing to the sink. -/
def cleanup (scope : Scope) : Scope × List Emission :=
  ({ scope with timings := none, counter := none }, [])

end StatsdMiddleware

/-- Module-level `incr(key, value=1)`: increments the counter of the
current scope, no-op when the `counter` binding is falsy. -/
def incr (scope : Scope) (key : String) (value : Int) : Scope :=
  match scope.counter with
  | some c => { scope with counter := some (c.increment key value) }
  | none => scope

/-- Module-level `decr(key, value=1)`. -/
def decr (scope : Scope) (key : String) (value : Int) : Scope :=
  match scope.counter with
  | some c => { scope with counter := some (c.decrement key value) }
  | none => scope

/-- The object returned by module-level `with_(key)`: a `WithTimer` bound to
the timer of the scope (via `Timer.__call__`) when `scope.timings` is truthy,
else a `DummyWith`. -/
inductive WithObj where
  | withTimer (timer : Timer) (key : String)
  | dummyWith
deriving DecidableEq, Repr

def with_ (scope : Scope) (key : String) : WithObj :=
  match scope.timings with
  | some t => .withTimer t key
  | none => .dummyWith

/-- Dunder `__enter__`: `WithTimer` starts its key on its timer; `DummyWith` does
nothing. -/
def WithObj.enter (w : WithObj) (now : Int) : WithObj :=
  match w with
  | .withTimer t k => .withTimer (t.start k now) k
  | .dummyWith => .dummyWith

/-- Dunder `__exit__(type_, value, traceback)`: called on every exit path; the
exception info argument is ignored by both classes. `WithTimer` stops its
key (the stop itself may raise); `DummyWith` does nothing. -/
def WithObj.exitW (w : WithObj) (excInfo : Option String) (now : Int) :
    WithObj × Option String :=
  match w, excInfo with
  | .withTimer t k, _ =>
      let r := t.stop k now
      (.withTimer r.1 k,
       match r.2 with | .ok _ => none | .error e => some e)
  | .dummyWith, _ => (.dummyWith, none)

namespace Celery

/-- Handler `celery.stop(**kwargs)`: calls `StatsdMiddleware.stop(task.name)` —
passing the task-name string as the tags argument — then clears
`scope.timings`; the clearing line is unreached when stop raises. -/
def stop (scope : Scope) (taskName : String) (now : Int) (debug : Bool) :
    Scope × List Emission × Option String :=
  let r := StatsdMiddleware.stop scope (.str taskName) now debug
  match r.2.2 with
  | some e => (r.1, r.2.1, some e)
  | none => ({ r.1 with timings := none }, r.2.1, none)

/-- Handler `celery.clear(**kwargs)` (task_failure): only
`scope.timings = None`. -/
def clear (scope : Scope) : Scope :=
  { scope with timings := none }

end Celery

/-- An abstract step of the Counter API, for stating properties about
arbitrary finite sequences of `increment`/`decrement` calls. -/
inductive CounterOp where
  | incrOp (key : String) (delta : Int)
  | decrOp (key : String) (delta : Int)
deriving DecidableEq, Repr

def CounterOp.apply (c : Counter) : CounterOp → Counter
  | .incrOp k d => c.increment k d
  | .decrOp k d => c.decrement k d

def applyOps (c : Counter) (ops : List CounterOp) : Counter :=
  ops.foldl CounterOp.apply c

/-- The signed contribution of one call to the running total of key `k`
(a decrement contributes its negated delta). -/
def CounterOp.contrib (k : String) : CounterOp → Int
  | .incrOp k' d => if k' = k then d else 0
  | .decrOp k' d => if k' = k then -d else 0

/-- Algebraic sum of the deltas a sequence of calls applies to key `k`. -/
def sumDeltas (k : String) (ops : List CounterOp) : Int :=
  (ops.map (CounterOp.contrib k)).sum

/-- Keys of an association list, in order. -/
def keys {α : Type} (m : List (String × α)) : List String :=
  m.map Prod.fst

/-- A sample call sequence used to instantiate the counter-sum property:
key `a` sums to 3, key `b` sums to 0. -/
def sampleOps : List CounterOp :=
  [.incrOp "a" 5, .decrOp "a" 2, .incrOp "b" 3, .decrOp "b" 3]

/-- The timer of a freshly begun `view` scope (open `total` span at time 0). -/
def timerW : Timer := (Timer.init none "view").start "total" 0

/-- The counter of a freshly begun `view` scope (one `hit`). -/
def counterW : Counter := (Counter.init none "view").increment "hit" 1

/-- A scope with no bindings (fresh thread / after teardown). -/
def scopeEmpty : Scope :=
  { timings := none, counter := none, counter_site := none }

/-- A fully populated freshly begun `view` scope. -/
def scopeFullW : Scope :=
  { timings := some timerW, counter := some counterW,
    counter_site := some counterW }

/-- A scope with only a timer binding (as `with_` consults only
`timings`). -/
def scopeTimerOnly : Scope :=
  { timings := some (Timer.init none "view"), counter := none,
    counter_site := none }

/-! ### Association-list helper lemmas -/

theorem alookup_dictSet_self {α : Type} (m : List (String × α)) (k : String)
    (v : α) : alookup (dictSet m k v) k = some v := by
  induction m with
  | nil => simp [dictSet, alookup]
  | cons p rest ih =>
      by_cases h : p.1 = k
      · simp [dictSet, alookup, h]
      · simpa [dictSet, alookup, h] using ih

theorem alookup_dictSet_ne {α : Type} (m : List (String × α)) (k k' : String)
    (v : α) (h : k' ≠ k) : alookup (dictSet m k' v) k = alookup m k := by
  induction m with
  | nil => simp [dictSet, alookup, h]
  | cons p rest ih =>
      by_cases hp : p.1 = k'
      · simp [dictSet, alookup, hp, h]
      · simp only [dictSet, alookup, if_neg hp]
        by_cases hk : p.1 = k <;> simp [alookup, hk, ih]

theorem alookup_append_of_none {α : Type} (m m2 : List (String × α))
    (k : String) (h : alookup m k = none) :
    alookup (m ++ m2) k = alookup m2 k := by
  induction m with
  | nil => simp
  | cons p rest ih =>
      by_cases hp : p.1 = k
      · simp [alookup, hp] at h
      · simp only [alookup, if_neg hp] at h
        simpa [alookup, hp] using ih h

theorem alookup_dictEnsure_self {α : Type} (m : List (String × α))
    (k : String) (d : α) :
    alookup (dictEnsure m k d) k = some (dictGetD m k d) := by
  unfold dictEnsure dictGetD
  cases h : alookup m k with
  | some v => simp [h]
  | none => simp [alookup_append_of_none m _ k h, alookup]

theorem dictGetD_dictEnsure_self {α : Type} (m : List (String × α))
    (k : String) (d : α) :
    dictGetD (dictEnsure m k d) k d = dictGetD m k d := by
  simp [dictGetD, alookup_dictEnsure_self]

theorem dequePop_eq_none_iff (l : List Int) : dequePop l = none ↔ l = [] := by
  cases l with
  | nil => simp [dequePop]
  | cons x rest =>
      simp only [dequePop]
      cases dequePop rest with
      | none => simp
      | some p => simp

theorem dequePop_append_single (l : List Int) (x : Int) :
    dequePop (l ++ [x]) = some (x, l) := by
  induction l with
  | nil => simp [dequePop]
  | cons a rest ih => simp [dequePop, ih]

theorem mem_of_alookup {α : Type} (m : List (String × α)) (k : String)
    (v : α) (h : alookup m k = some v) : (k, v) ∈ m := by
  induction m with
  | nil => simp [alookup] at h
  | cons p rest ih =>
      obtain ⟨a, b⟩ := p
      by_cases hp : a = k
      · subst hp
        simp only [alookup, if_pos rfl] at h
        obtain rfl : b = v := Option.some.inj h
        exact List.mem_cons_self _ _
      · simp only [alookup, if_neg hp] at h
        exact List.mem_cons_of_mem _ (ih h)

theorem alookup_of_mem_nodup {α : Type} (m : List (String × α)) (k : String)
    (v : α) (hn : (keys m).Nodup) (h : (k, v) ∈ m) : alookup m k = some v := by
  induction m with
  | nil => simp at h
  | cons p rest ih =>
      simp only [keys, List.map_cons, List.nodup_cons] at hn
      rcases List.mem_cons.mp h with heq | hmem
      · subst heq
        simp [alookup]
      · have hne : p.1 ≠ k := by
          intro hk
          exact hn.1 (hk ▸ (List.mem_map.mpr ⟨(k, v), hmem, rfl⟩))
        simp only [alookup, if_neg hne]
        exact ih hn.2 hmem

theorem mem_keys_dictSet {α : Type} (m : List (String × α)) (k k' : String)
    (v : α) : k' ∈ keys (dictSet m k v) ↔ k' ∈ keys m ∨ k' = k := by
  induction m with
  | nil => simp [dictSet, keys]
  | cons p rest ih =>
      obtain ⟨a, b⟩ := p
      by_cases hp : a = k
      · subst hp
        simp [dictSet, keys]
        tauto
      · simp [dictSet, keys, hp] at ih ⊢
        tauto

theorem nodup_keys_dictSet {α : Type} (m : List (String × α)) (k : String)
    (v : α) (h : (keys m).Nodup) : (keys (dictSet m k v)).Nodup := by
  induction m with
  | nil => simp [dictSet, keys]
  | cons p rest ih =>
      obtain ⟨a, b⟩ := p
      simp only [keys, List.map_cons, List.nodup_cons] at h
      by_cases hp : a = k
      · subst hp
        have hset : dictSet ((a, b) :: rest) a v = (a, v) :: rest := by
          simp [dictSet]
        rw [hset]
        simp only [keys, List.map_cons, List.nodup_cons]
        exact ⟨h.1, h.2⟩
      · simp only [dictSet, if_neg hp, keys, List.map_cons, List.nodup_cons]
        refine ⟨?_, ih h.2⟩
        intro hmem
        rcases (mem_keys_dictSet rest k a v).mp hmem with h2 | h2
        · exact h.1 h2
        · exact hp h2

theorem nodup_keys_applyOps (c : Counter) (ops : List CounterOp)
    (h : (keys c.data).Nodup) : (keys (applyOps c ops).data).Nodup := by
  induction ops generalizing c with
  | nil => simpa [applyOps] using h
  | cons op rest ih =>
      have hstep : (keys (CounterOp.apply c op).data).Nodup := by
        cases op <;>
          exact nodup_keys_dictSet _ _ _ h
      simpa [applyOps, List.foldl_cons] using ih (CounterOp.apply c op) hstep

theorem dictGetD_applyOps (c : Counter) (ops : List CounterOp) (k : String) :
    dictGetD (applyOps c ops).data k 0 = dictGetD c.data k 0 + sumDeltas k ops := by
  induction ops generalizing c with
  | nil => simp [applyOps, sumDeltas]
  | cons op rest ih =>
      have hstep : dictGetD (CounterOp.apply c op).data k 0 =
          dictGetD c.data k 0 + CounterOp.contrib k op := by
        cases op with
        | incrOp k' d =>
            by_cases hk : k' = k
            · subst hk
              simp [CounterOp.apply, CounterOp.contrib, Counter.increment,
                    dictGetD, alookup_dictSet_self]
            · simp [CounterOp.apply, CounterOp.contrib, Counter.increment,
                    dictGetD, alookup_dictSet_ne _ _ _ _ hk, hk]
        | decrOp k' d =>
            by_cases hk : k' = k
            · subst hk
              simp [CounterOp.apply, CounterOp.contrib, Counter.decrement,
                    dictGetD, alookup_dictSet_self, sub_eq_add_neg]
            · simp [CounterOp.apply, CounterOp.contrib, Counter.decrement,
                    dictGetD, alookup_dictSet_ne _ _ _ _ hk, hk]
      have hrest := ih (CounterOp.apply c op)
      simp only [applyOps, List.foldl_cons] at hrest ⊢
      rw [hrest, hstep]
      simp only [sumDeltas, List.map_cons, List.sum_cons]
      ring

theorem stringAppendCancel (s a b : String) (h : s ++ a = s ++ b) : a = b := by
  have hd : (s ++ a).data = (s ++ b).data := congrArg String.data h
  simp only [String.data_append] at hd
  exact String.ext (List.append_cancel_left hd)

theorem pfx_applyOps (c : Counter) (ops : List CounterOp) :
    (applyOps c ops).pfx = c.pfx := by
  induction ops generalizing c with
  | nil => rfl
  | cons op rest ih =>
      have hstep : (CounterOp.apply c op).pfx = c.pfx := by
        cases op <;> rfl
      simpa [applyOps, List.foldl_cons, hstep] using ih (CounterOp.apply c op)

theorem timerStop_ok (t : Timer) (k : String) (now : Int)
    (h : dictGetD t.starts k [] ≠ []) : ∃ d, (t.stop k now).2 = .ok d := by
  have hstack : dictGetD (dictEnsure t.starts k []) k [] =
      dictGetD t.starts k [] := dictGetD_dictEnsure_self t.starts k []
  simp only [Timer.stop, hstack]
  cases hdp : dequePop (dictGetD t.starts k []) with
  | none => exact absurd ((dequePop_eq_none_iff _).mp hdp) h
  | some pr =>
      obtain ⟨ts, rest⟩ := pr
      exact ⟨now - ts, by simp⟩

theorem timerSubmit_dict_no_error (t : Timer) (entries : List (String × String))
    (debug : Bool) (h : t.starts = []) :
    (t.submit (.dict entries) debug).2.2 = none := by
  simp [Timer.submit, TagArg.items, h]

/-! ### Claim theorems -/

/-- C1, counterexample: a Counter holding `hit = 1` still holds it after
`submit` (the source never clears `self.data`), and a second `submit` with
no intervening calls emits again — refuting the claim that flush empties
the mapping of every Accumulator and that a second flush emits nothing. -/
theorem C1_counterexample :
    ¬ (((Counter.submit { pfx := "view", data := [("hit", 1)] }
          (.dict [])).1.data = []) ∧
       (((Counter.submit { pfx := "view", data := [("hit", 1)] }
          (.dict [])).1.submit (.dict [])).2.1 = [])) := by
  decide

/-- C1, amended: after `submit` the Timer key mapping is empty and a second
submit emits nothing; the Counter mapping is left unchanged by `submit`,
so a second submit re-emits exactly the same events. -/
theorem C1_flush_state (t : Timer) (c : Counter)
    (entries : List (String × String)) (debug debug2 : Bool) :
    (t.submit (.dict entries) debug).1.data = [] ∧
    ((t.submit (.dict entries) debug).1.submit (.dict entries) debug2).2.1
      = [] ∧
    (c.submit (.dict entries)).1.data = c.data ∧
    ((c.submit (.dict entries)).1.submit (.dict entries)).2.1 =
      (c.submit (.dict entries)).2.1 :=
  ⟨rfl, rfl, rfl, rfl⟩

/-- C2, counterexample: in the scenario `start "view"`, `incr "hit"`,
`stop {method: get}` (run at times 0 and 7, no global prefix), no counter
event `view.hit = 1` tagged `method:get` is emitted — `begin` has already
counted one `hit`, so the primary counter emits `view.hit = 2`. -/
theorem C2_counterexample :
    Emission.increment "view.hit" 1 ["method:get"] 1 ∉
      (StatsdMiddleware.stop (incr (StatsdMiddleware.start none "view" 0)
        "hit" 1) (.dict [("method", "get")]) 7 false).2.1 ∧
    Emission.increment "view.hit" 2 ["method:get"] 1 ∈
      (StatsdMiddleware.stop (incr (StatsdMiddleware.start none "view" 0)
        "hit" 1) (.dict [("method", "get")]) 7 false).2.1 := by
  decide

/-- C2, amended: `begin("view")`, `increment("hit")`, `end({method:get})`
(no global prefix) emits exactly, in order: timing `view.total` with the
elapsed duration tagged `method:get`, counter `view.hit = 2` tagged
`method:get` (the hit counted by begin plus the explicit increment on the same key),
and counter `view.hit = 1` tagged `type:site`. -/
theorem C2_scenario_emissions (t1 t4 : Int) :
    StatsdMiddleware.stop (incr (StatsdMiddleware.start none "view" t1)
      "hit" 1) (.dict [("method", "get")]) t4 false =
    ({ timings := some { pfx := "view", starts := [], data := [] },
       counter := some { pfx := "view", data := [("hit", 2)] },
       counter_site := some { pfx := "view", data := [("hit", 1)] } },
     [Emission.timing "view.total" (t4 - t1) ["method:get"] 1,
      Emission.increment "view.hit" 2 ["method:get"] 1,
      Emission.increment "view.hit" 1 ["type:site"] 1],
     none) := by
  simp [StatsdMiddleware.stop, StatsdMiddleware.start, incr, Timer.init,
        Counter.init, clientName, Timer.start, Timer.stop, Timer.submit,
        Counter.increment, Counter.submit, TagArg.items, fmtTags,
        dictSet, dictGetD, dictEnsure, dictDel, alookup, dequePop,
        sampleRateDefault]

/-- C3: at task_postrun with an active scope (begun at time 0 for a task
named `tasks.add`, completing at time 5), the celery stop handler passes
the task-name string as the tags argument; `tags.items()` raises
AttributeError inside `Timer.submit`, so nothing at all is emitted, the
accumulated data survives unflushed, and the `timings = None` line is
never reached. -/
theorem C3_task_postrun_fails :
    Celery.stop (StatsdMiddleware.start none "celery" 0) "tasks.add" 5 false =
    ({ timings := some { pfx := "celery", starts := [],
                         data := [("total", 5)] },
       counter := some { pfx := "celery", data := [("hit", 1)] },
       counter_site := some { pfx := "celery", data := [("hit", 1)] } },
     [], some "AttributeError: str object has no attribute items") := by
  decide

/-- C6: for every key `k` (and any timer name and timestamps), the nested
sequence `start k; start k; stop k; stop k` is accepted — each stop pops
the most recent start — and the accumulated total for `k` equals the inner
elapsed duration plus the outer elapsed duration. -/
theorem C6_nested_spans (g : Option String) (p k : String)
    (t1 t2 t3 t4 : Int) :
    ((((Timer.init g p).start k t1).start k t2).stop k t3).2 =
      .ok (t3 - t2) ∧
    (((((Timer.init g p).start k t1).start k t2).stop k t3).1.stop k t4).2 =
      .ok (t4 - t1) ∧
    dictGetD (((((Timer.init g p).start k t1).start k t2).stop k
      t3).1.stop k t4).1.data k 0 = (t3 - t2) + (t4 - t1) := by
  simp [Timer.init, Timer.start, Timer.stop, dictSet, dictGetD, dictEnsure,
        dictDel, alookup, dequePop]

/-- C9, counterexample: after `begin`, `cleanup` leaves the site-counter
binding present (the source nulls only `timings` and `counter`), and the
celery failure handler `clear` leaves even the primary counter present —
refuting the claim that every scope binding becomes absent. -/
theorem C9_counterexample :
    (StatsdMiddleware.cleanup
      (StatsdMiddleware.start none "view" 0)).1.counter_site ≠ none ∧
    (Celery.clear (StatsdMiddleware.start none "view" 0)).counter ≠ none := by
  decide

/-- C9, amended: `cleanup` unconditionally clears the timer and primary
counter bindings and emits nothing to the sink, but the site-counter
binding survives; the celery failure handler clears only the timer
binding. (Since `end` guards on the timer binding, the surviving data can
still not be flushed without a new `begin`, which replaces it.) -/
theorem C9_cleanup_leaves_site (scope : Scope) :
    StatsdMiddleware.cleanup scope =
      ({ scope with timings := none, counter := none }, []) ∧
    (StatsdMiddleware.cleanup scope).1.counter_site = scope.counter_site ∧
    Celery.clear scope = { scope with timings := none } :=
  ⟨rfl, rfl, rfl⟩

/-- C10: stopping a never-started key on a fresh Timer raises the
"never started tracking" error, but the defaultdict lookup in the assert
has already inserted an empty deque for the key; that spurious entry makes
the DEBUG-mode no-outstanding-spans assert in `submit` fail even though no
span was ever left open. -/
theorem C10_spurious_entry (g : Option String) (p k : String) (now : Int)
    (entries : List (String × String)) :
    ((Timer.init g p).stop k now).2 =
      .error ("Unable to stop tracking " ++ k ++
              ", never started tracking it") ∧
    ((Timer.init g p).stop k now).1.starts = [(k, [])] ∧
    (((Timer.init g p).stop k now).1.submit (.dict entries) true).2.2 =
      some "Timer(s) were started but never stopped" := by
  simp [Timer.init, Timer.stop, Timer.submit, TagArg.items, dictEnsure,
        dictGetD, alookup, dequePop]

/-- C4: `decrement` equals `increment` of the negated delta; for every
finite sequence of increment/decrement calls on a fresh Counter and every
key, flush emits that key with the algebraic sum of its deltas when the
sum is non-zero, and emits nothing at all for that key when the sum is
zero. -/
theorem C4_counter_algebraic_sum (p k : String) (ops : List CounterOp)
    (entries : List (String × String)) :
    (∀ (c : Counter) (key : String) (d : Int),
        c.decrement key d = c.increment key (-d)) ∧
    (sumDeltas k ops ≠ 0 →
       Emission.increment (p ++ "." ++ k) (sumDeltas k ops)
           (fmtTags entries) sampleRateDefault ∈
         ((applyOps (Counter.init none p) ops).submit (.dict entries)).2.1) ∧
    (sumDeltas k ops = 0 →
       ∀ (v : Int) (tg : List String) (r : Int),
         Emission.increment (p ++ "." ++ k) v tg r ∉
           ((applyOps (Counter.init none p) ops).submit (.dict entries)).2.1) := by
  have hpfx : (applyOps (Counter.init none p) ops).pfx = p :=
    pfx_applyOps (Counter.init none p) ops
  have hval : dictGetD (applyOps (Counter.init none p) ops).data k 0 =
      sumDeltas k ops := by
    simpa [Counter.init, dictGetD, alookup] using
      dictGetD_applyOps (Counter.init none p) ops k
  have hnodup : (keys (applyOps (Counter.init none p) ops).data).Nodup :=
    nodup_keys_applyOps (Counter.init none p) ops (by simp [Counter.init, keys])
  refine ⟨?_, ?_, ?_⟩
  · intro c key d
    simp [Counter.decrement, Counter.increment, sub_eq_add_neg]
  · intro h
    have hlk : alookup (applyOps (Counter.init none p) ops).data k =
        some (sumDeltas k ops) := by
      rcases halk : alookup (applyOps (Counter.init none p) ops).data k with
        _ | w
      · rw [dictGetD, halk] at hval
        exact absurd hval.symm h
      · rw [dictGetD, halk, Option.getD_some] at hval
        exact congrArg some hval
    have hmem : (k, sumDeltas k ops) ∈ (applyOps (Counter.init none p) ops).data :=
      mem_of_alookup _ _ _ hlk
    simp only [Counter.submit, TagArg.items]
    refine List.mem_map.mpr ⟨(k, sumDeltas k ops), List.mem_filter.mpr
      ⟨hmem, by simpa using h⟩, ?_⟩
    simp [hpfx]
  · intro h0 v tg r hmem
    simp only [Counter.submit, TagArg.items] at hmem
    obtain ⟨q, hq, hfq⟩ := List.mem_map.mp hmem
    obtain ⟨qk, qv⟩ := q
    obtain ⟨hqdata, hqne⟩ := List.mem_filter.mp hq
    simp only [Emission.increment.injEq] at hfq
    have hname : p ++ "." ++ qk = p ++ "." ++ k := by
      rw [hpfx] at hfq
      exact hfq.1
    have hkey : qk = k := by
      rw [String.append_assoc, String.append_assoc] at hname
      exact stringAppendCancel "." qk k (stringAppendCancel p _ _ hname)
    subst hkey
    have : alookup (applyOps (Counter.init none p) ops).data qk = some qv :=
      alookup_of_mem_nodup _ _ _ hnodup hqdata
    rw [dictGetD, this, Option.getD_some] at hval
    rw [hval, h0] at hqne
    simp at hqne

/-- C4, witness: on the concrete sequence incr a 5; decr a 2; incr b 3;
decr b 3, key `a` is emitted with 3 and key `b` is not emitted. -/
theorem C4_witness :
    (Counter.decrement { pfx := "view", data := [] } "a" 1 =
       Counter.increment { pfx := "view", data := [] } "a" (-1)) ∧
    (Emission.increment ("view" ++ "." ++ "a") (sumDeltas "a" sampleOps)
        (fmtTags [("method", "get")]) sampleRateDefault ∈
      ((applyOps (Counter.init none "view") sampleOps).submit
        (.dict [("method", "get")])).2.1) ∧
    (Emission.increment ("view" ++ "." ++ "b") 0 [] 1 ∉
      ((applyOps (Counter.init none "view") sampleOps).submit
        (.dict [("method", "get")])).2.1) :=
  ⟨(C4_counter_algebraic_sum "view" "a" sampleOps [("method", "get")]).1
      { pfx := "view", data := [] } "a" 1,
   (C4_counter_algebraic_sum "view" "a" sampleOps [("method", "get")]).2.1
      (by decide),
   (C4_counter_algebraic_sum "view" "b" sampleOps [("method", "get")]).2.2
      (by decide) 0 [] 1⟩

/-- C5: calling `stop k` on a Timer with no outstanding start for `k`
returns the "never started tracking" error and records no duration (the
accumulated data is unchanged). -/
theorem C5_stop_without_start (t : Timer) (k : String) (now : Int)
    (h : dictGetD t.starts k [] = []) :
    (t.stop k now).2 =
      .error ("Unable to stop tracking " ++ k ++
              ", never started tracking it") ∧
    (t.stop k now).1.data = t.data := by
  have hstack : dictGetD (dictEnsure t.starts k []) k [] = [] := by
    rw [dictGetD_dictEnsure_self]
    exact h
  simp [Timer.stop, hstack, dequePop]

/-- C5, witness: stopping the never-started key `x` on a fresh timer. -/
theorem C5_witness :
    ((Timer.init none "view").stop "x" 0).2 =
      .error ("Unable to stop tracking " ++ "x" ++
              ", never started tracking it") ∧
    ((Timer.init none "view").stop "x" 0).1.data =
      (Timer.init none "view").data :=
  C5_stop_without_start (Timer.init none "view") "x" 0 (by decide)

/-- C7: `StatsdMiddleware.stop` is a no-op (same scope, no emissions, no
error) when no timer binding exists; with a full scope whose `total` span
is open and closes leaving no outstanding span, it stops `total`, then
emits the timer flush, then the primary counter flush with the given tags,
then the site counter flush with the fixed `type: site` tag, in that
order. -/
theorem C7_end_behavior (scope : Scope) (tags : TagArg) (now : Int)
    (debug : Bool) (t : Timer) (c cs : Counter)
    (entries : List (String × String)) :
    (scope.timings = none →
       StatsdMiddleware.stop scope tags now debug = (scope, [], none)) ∧
    (scope = { timings := some t, counter := some c,
               counter_site := some cs } →
     dictGetD t.starts "total" [] ≠ [] →
     (t.stop "total" now).1.starts = [] →
     StatsdMiddleware.stop scope (.dict entries) now debug =
       ({ timings :=
            some ((t.stop "total" now).1.submit (.dict entries) debug).1,
          counter := some (c.submit (.dict entries)).1,
          counter_site := some (cs.submit (.dict [("type", "site")])).1 },
        ((t.stop "total" now).1.submit (.dict entries) debug).2.1 ++
          (c.submit (.dict entries)).2.1 ++
          (cs.submit (.dict [("type", "site")])).2.1,
        none)) := by
  constructor
  · intro h
    simp [StatsdMiddleware.stop, h]
  · rintro rfl h2 h3
    obtain ⟨d, hd⟩ := timerStop_ok t "total" now h2
    have hsub : ((t.stop "total" now).1.submit (.dict entries) debug).2.2 =
        none := timerSubmit_dict_no_error _ entries debug h3
    simp only [StatsdMiddleware.stop, hd, hsub]
    simp [Counter.submit, TagArg.items]

/-- C7, witness: both branches on concrete scopes — the empty scope is
untouched, and a freshly begun scope flushes in timer, counter, site
order. -/
theorem C7_witness :
    (StatsdMiddleware.stop scopeEmpty (.dict []) 0 false =
      (scopeEmpty, [], none)) ∧
    (StatsdMiddleware.stop scopeFullW (.dict []) 5 false =
      ({ timings :=
           some ((timerW.stop "total" 5).1.submit (.dict []) false).1,
         counter := some (counterW.submit (.dict [])).1,
         counter_site := some (counterW.submit (.dict [("type", "site")])).1 },
       ((timerW.stop "total" 5).1.submit (.dict []) false).2.1 ++
         (counterW.submit (.dict [])).2.1 ++
         (counterW.submit (.dict [("type", "site")])).2.1,
       none)) :=
  ⟨(C7_end_behavior scopeEmpty
      (.dict []) 0 false (Timer.init none "view") (Counter.init none "view")
      (Counter.init none "view") []).1 rfl,
   (C7_end_behavior scopeFullW (.dict []) 5 false timerW
      counterW counterW []).2 rfl (by decide) (by decide)⟩

/-- C8: when the scope has a timer binding, `with_` yields a `WithTimer`
whose acquisition starts the key and whose release — invoked on every exit
path, the exception-info argument being ignored — stops it; when no timer
binding exists, it yields a `DummyWith` whose acquisition and release do
nothing and never error. -/
theorem C8_with_span (scope : Scope) (key : String) (t : Timer)
    (e : Option String) (now now2 : Int) :
    (scope.timings = some t →
       with_ scope key = .withTimer t key ∧
       (WithObj.withTimer t key).enter now =
         .withTimer (t.start key now) key ∧
       (WithObj.withTimer (t.start key now) key).exitW e now2 =
         (.withTimer ((t.start key now).stop key now2).1 key, none)) ∧
    (scope.timings = none →
       with_ scope key = .dummyWith ∧
       WithObj.enter .dummyWith now = .dummyWith ∧
       WithObj.exitW .dummyWith e now2 = (.dummyWith, none)) := by
  constructor
  · intro h
    refine ⟨by simp [with_, h], rfl, ?_⟩
    have hstack : dictGetD (dictEnsure (t.start key now).starts key [])
        key [] = dictGetD t.starts key [] ++ [now] := by
      rw [dictGetD_dictEnsure_self]
      simp [Timer.start, dictGetD, alookup_dictSet_self]
    have hs : ((t.start key now).stop key now2).2 = .ok (now2 - now) := by
      simp only [Timer.stop, hstack, dequePop_append_single]
    simp [WithObj.exitW, hs]
  · intro h
    exact ⟨by simp [with_, h], rfl, rfl⟩

/-- C8, witness: a scope with a timer (started at 1, stopped at 4, with an
exception in flight) and a scope with no timer binding. -/
theorem C8_witness :
    (with_ scopeTimerOnly "k" =
       .withTimer (Timer.init none "view") "k" ∧
     (WithObj.withTimer (Timer.init none "view") "k").enter 1 =
       .withTimer ((Timer.init none "view").start "k" 1) "k" ∧
     (WithObj.withTimer ((Timer.init none "view").start "k" 1) "k").exitW
         (some "boom") 4 =
       (.withTimer (((Timer.init none "view").start "k" 1).stop "k" 4).1 "k",
        none)) ∧
    (with_ scopeEmpty "k" = .dummyWith ∧
     WithObj.enter .dummyWith 1 = .dummyWith ∧
     WithObj.exitW .dummyWith (some "boom") 4 = (.dummyWith, none)) :=
  ⟨(C8_with_span scopeTimerOnly "k"
      (Timer.init none "view") (some "boom") 1 4).1 rfl,
   (C8_with_span scopeEmpty
      "k" (Timer.init none "view") (some "boom") 1 4).2 rfl⟩

end DjangoStatsd
